import Mathlib

/-!
Verification of the GPU Hermite-LUT bake pipeline in
`src/dipy/viz/sh_compute_bake.py`.

The file shallowly embeds the two WGSL compute kernels (`_MATMUL_WGSL`,
`_FD_WGSL`), the grid-geometry computation, the basis-matrix truncation,
the basis cache handling of `_build_basis_matrices_flat`, and the chunk
orchestration of `populate_hermite_lut_cube_gpu`.

Scalars are modelled as `ℚ`.  The kernels run in IEEE `f32`; the stencil
constants `0.6666666666666666` and `-0.0833333333333333` appearing in
`_FD_WGSL` denote exactly the same `f32` bit patterns as the exact
rationals `8/12` and `-1/12` (each decimal literal rounds to the nearest
`f32` of the corresponding rational), so the rational embedding uses the
exact rationals.  Unsigned 32-bit index arithmetic is modelled with `ℕ`;
this is faithful as long as no subtraction underflows, which the theorems
below track explicitly (`iu`, `iv` stay at least 2).
-/

namespace SHComputeBake

/-- One Hermite LUT record `(value, du, dv, dudv)` — a WGSL `vec4<f32>`. -/
abbrev Rec4 := ℚ × ℚ × ℚ × ℚ

/-! ### Generic 1-D compute dispatch

Both kernels are dispatched as `ceil(total_work / 256)` workgroups of 256
invocations; invocation `idx` returns immediately when `idx ≥ total` and
otherwise writes only the output cell `idx`.  `kernelStep` is the effect of
one invocation on the output buffer, `dispatchGrid` the effect of the whole
grid (the sequential fold is sound because distinct invocations write
distinct cells and read only other buffers). -/

def kernelStep {α : Type} (total : ℕ) (f : ℕ → α) (buf : ℕ → α) (i : ℕ) : ℕ → α :=
  if total ≤ i then buf else fun j => if j = i then f i else buf j

def dispatchGrid {α : Type} (numInv total : ℕ) (f : ℕ → α) (init : ℕ → α) : ℕ → α :=
  (List.range numInv).foldl (kernelStep total f) init

/-- Number of invocations launched for `total` work items:
`ceil(total / 256) * 256` workgroup threads. -/
def numInvocations (total : ℕ) : ℕ :=
  (total + 255) / 256 * 256

lemma le_numInvocations (total : ℕ) : total ≤ numInvocations total := by
  unfold numInvocations
  omega

lemma dispatchGrid_apply {α : Type} (n total : ℕ) (f init : ℕ → α) (j : ℕ) :
    dispatchGrid n total f init j = if j < n ∧ j < total then f j else init j := by
  induction n with
  | zero => simp [dispatchGrid]
  | succ m ih =>
    unfold dispatchGrid at ih ⊢
    rw [List.range_succ, List.foldl_append, List.foldl_cons, List.foldl_nil]
    by_cases hm : total ≤ m
    · rw [kernelStep, if_pos hm, ih]
      have hiff : (j < m ∧ j < total) ↔ (j < m + 1 ∧ j < total) := by omega
      rw [if_congr hiff rfl rfl]
    · rw [kernelStep, if_neg hm]
      by_cases hj : j = m
      · subst hj
        rw [if_pos rfl, if_pos (by omega)]
      · rw [if_neg hj, ih]
        have hiff : (j < m ∧ j < total) ↔ (j < m + 1 ∧ j < total) := by omega
        rw [if_congr hiff rfl rfl]

/-- An invocation writes no cell other than its own index. -/
lemma kernelStep_ne {α : Type} (total : ℕ) (f : ℕ → α) (buf : ℕ → α) (i j : ℕ)
    (h : j ≠ i) : kernelStep total f buf i j = buf j := by
  unfold kernelStep
  by_cases hi : total ≤ i
  · rw [if_pos hi]
  · rw [if_neg hi, if_neg h]

/-! ### Index decomposition helpers -/

lemma decomp_div (M g r : ℕ) (hM : 0 < M) (hr : r < M) : (g * M + r) / M = g := by
  rw [Nat.mul_comm g M, Nat.mul_add_div hM, Nat.div_eq_of_lt hr, Nat.add_zero]

lemma decomp_mod (M g r : ℕ) (hr : r < M) : (g * M + r) % M = r := by
  rw [Nat.add_comm, Nat.add_mul_mod_self_right, Nat.mod_eq_of_lt hr]

lemma block_lt (a b c d : ℕ) (ha : a < b) (hc : c < d) : a * d + c < b * d :=
  calc a * d + c < a * d + d := by omega
  _ = (a + 1) * d := by ring
  _ ≤ b * d := Nat.mul_le_mul_right d (by omega)

/-! ### Pass 1: the matmul kernel (`_MATMUL_WGSL main`, src lines 50–67) -/

structure MatmulParams where
  glyph_count : ℕ
  total_dirs : ℕ
  n_coeffs : ℕ

/-- The value computed by matmul invocation `idx` (body of `_MATMUL_WGSL main`
after the bounds guard): glyph `g = idx / total_dirs`, direction
`d = idx % total_dirs`, then `acc` accumulated over the coefficients in
increasing order. -/
def matmulAt (p : MatmulParams) (coeffs basis : ℕ → ℚ) (idx : ℕ) : ℚ :=
  let g := idx / p.total_dirs
  let d := idx % p.total_dirs
  let C := p.n_coeffs
  let c_off := g * C
  let b_off := d * C
  (List.range C).foldl (fun acc c => acc + coeffs (c_off + c) * basis (b_off + c)) 0

/-- The `values` buffer after the full matmul dispatch
(`ceil(total/256)` workgroups of 256, guard `idx ≥ total` returns). -/
def matmulRun (p : MatmulParams) (coeffs basis init : ℕ → ℚ) : ℕ → ℚ :=
  dispatchGrid (numInvocations (p.glyph_count * p.total_dirs))
    (p.glyph_count * p.total_dirs) (matmulAt p coeffs basis) init

lemma matmulRun_apply (p : MatmulParams) (coeffs basis init : ℕ → ℚ) (idx : ℕ) :
    matmulRun p coeffs basis init idx =
      if idx < p.glyph_count * p.total_dirs then matmulAt p coeffs basis idx
      else init idx := by
  unfold matmulRun
  rw [dispatchGrid_apply]
  have h := le_numInvocations (p.glyph_count * p.total_dirs)
  by_cases hidx : idx < p.glyph_count * p.total_dirs
  · rw [if_pos ⟨by omega, hidx⟩, if_pos hidx]
  · rw [if_neg (by omega), if_neg hidx]

lemma foldl_add_eq_sum (f : ℕ → ℚ) (n : ℕ) :
    (List.range n).foldl (fun acc c => acc + f c) 0 = Finset.sum (Finset.range n) f := by
  induction n with
  | zero => simp
  | succ m ih =>
    rw [List.range_succ, List.foldl_append, List.foldl_cons, List.foldl_nil, ih,
      Finset.sum_range_succ]

/-! ### Pass 2: the finite-difference kernel (`_FD_WGSL main`, src lines 96–161) -/

/-- 4th-order central-difference coefficient `8/12` (WGSL literal
`0.6666666666666666`, the same `f32` as the exact rational). -/
def c1 : ℚ := 8 / 12

/-- 4th-order central-difference coefficient `-1/12` (WGSL literal
`-0.0833333333333333`, the same `f32` as the exact rational). -/
def c2 : ℚ := -1 / 12

/-- Body of the FD kernel after the internal-grid coordinates are fixed:
`read r c` is `values[base + r * Si + c]` (the "read value from internal
grid" helper of the WGSL source).  Mirrors src lines 122–160. -/
def fdCore (read : ℕ → ℕ → ℚ) (iu iv : ℕ) : Rec4 :=
  let val := read iu iv
  let du := c1 * (read iu (iv + 1) - read iu (iv - 1))
          + c2 * (read iu (iv + 2) - read iu (iv - 2))
  let dv := c1 * (read (iu + 1) iv - read (iu - 1) iv)
          + c2 * (read (iu + 2) iv - read (iu - 2) iv)
  let du_p1 := c1 * (read (iu + 1) (iv + 1) - read (iu + 1) (iv - 1))
             + c2 * (read (iu + 1) (iv + 2) - read (iu + 1) (iv - 2))
  let du_m1 := c1 * (read (iu - 1) (iv + 1) - read (iu - 1) (iv - 1))
             + c2 * (read (iu - 1) (iv + 2) - read (iu - 1) (iv - 2))
  let du_p2 := c1 * (read (iu + 2) (iv + 1) - read (iu + 2) (iv - 1))
             + c2 * (read (iu + 2) (iv + 2) - read (iu + 2) (iv - 2))
  let du_m2 := c1 * (read (iu - 2) (iv + 1) - read (iu - 2) (iv - 1))
             + c2 * (read (iu - 2) (iv + 2) - read (iu - 2) (iv - 2))
  let dudv := c1 * (du_p1 - du_m1) + c2 * (du_p2 - du_m2)
  (val, du, dv, dudv)

/-- The FD kernel's uniform parameter block (`_pad` fields omitted). -/
structure FDParams where
  glyph_count : ℕ
  size_internal : ℕ
  out_size : ℕ
  start : ℕ
  total_texels : ℕ

/-- The record computed by FD invocation `idx` (body of `_FD_WGSL main` after
the bounds guard), including the flat-index decomposition into
(glyph, face, output row, output col). -/
def fdTexel (p : FDParams) (values : ℕ → ℚ) (idx : ℕ) : Rec4 :=
  let S := p.out_size
  let Si := p.size_internal
  let face_texels := S * S
  let g := idx / (6 * face_texels)
  let rem := idx % (6 * face_texels)
  let face := rem / face_texels
  let texel := rem % face_texels
  let ou := texel / S
  let ov := texel % S
  let iu := ou + p.start
  let iv := ov + p.start
  let dirs_per_face := Si * Si
  let base := g * 6 * dirs_per_face + face * dirs_per_face
  fdCore (fun r c => values (base + r * Si + c)) iu iv

/-- The output buffer after the full FD dispatch. -/
def fdRun (p : FDParams) (values : ℕ → ℚ) (init : ℕ → Rec4) : ℕ → Rec4 :=
  dispatchGrid (numInvocations p.total_texels) p.total_texels (fdTexel p values) init

lemma fdRun_apply (p : FDParams) (values : ℕ → ℚ) (init : ℕ → Rec4) (idx : ℕ) :
    fdRun p values init idx =
      if idx < p.total_texels then fdTexel p values idx else init idx := by
  unfold fdRun
  rw [dispatchGrid_apply]
  have h := le_numInvocations p.total_texels
  by_cases hidx : idx < p.total_texels
  · rw [if_pos ⟨by omega, hidx⟩, if_pos hidx]
  · rw [if_neg (by omega), if_neg hidx]

/-! ### Spec-side stencil formulas

These definitions follow the specification text of §4.4 word for word and
exist to be compared against the kernel embedding above:
`du = c1·(V[iu,iv+1]-V[iu,iv-1]) + c2·(V[iu,iv+2]-V[iu,iv-2])`, `dv` the
same across rows, and `dudv` the same `c1`/`c2` stencil applied across rows
to the `u`-derivative evaluated at rows `iu±1`, `iu±2`. -/

def specDu (V : ℕ → ℕ → ℚ) (iu iv : ℕ) : ℚ :=
  c1 * (V iu (iv + 1) - V iu (iv - 1)) + c2 * (V iu (iv + 2) - V iu (iv - 2))

def specDv (V : ℕ → ℕ → ℚ) (iu iv : ℕ) : ℚ :=
  c1 * (V (iu + 1) iv - V (iu - 1) iv) + c2 * (V (iu + 2) iv - V (iu - 2) iv)

def specDudv (V : ℕ → ℕ → ℚ) (iu iv : ℕ) : ℚ :=
  c1 * (specDu V (iu + 1) iv - specDu V (iu - 1) iv)
    + c2 * (specDu V (iu + 2) iv - specDu V (iu - 2) iv)

/-- The spec's output 4-tuple `(val, du, dv, dudv)` at internal cell
`(iu, iv)` of the per-face grid `V`. -/
def spec4 (V : ℕ → ℕ → ℚ) (iu iv : ℕ) : Rec4 :=
  (V iu iv, specDu V iu iv, specDv V iu iv, specDudv V iu iv)

/-! ### Characterisation of an FD invocation at a decomposed index -/

lemma texel_lt (S ou ov : ℕ) (hou : ou < S) (hov : ov < S) : ou * S + ov < S * S :=
  block_lt ou S ov S hou hov

lemma face_texel_lt (S face ou ov : ℕ) (hface : face < 6) (hou : ou < S) (hov : ov < S) :
    face * (S * S) + (ou * S + ov) < 6 * (S * S) :=
  block_lt face 6 (ou * S + ov) (S * S) hface (texel_lt S ou ov hou hov)

lemma fdTexel_eq (p : FDParams) (v : ℕ → ℚ) (g face ou ov : ℕ)
    (hface : face < 6) (hou : ou < p.out_size) (hov : ov < p.out_size) :
    fdTexel p v (g * (6 * (p.out_size * p.out_size)) + face * (p.out_size * p.out_size)
        + ou * p.out_size + ov)
      = fdCore (fun r c => v (g * 6 * (p.size_internal * p.size_internal)
          + face * (p.size_internal * p.size_internal) + r * p.size_internal + c))
          (ou + p.start) (ov + p.start) := by
  have hS : 0 < p.out_size := by omega
  have h1 : ou * p.out_size + ov < p.out_size * p.out_size := texel_lt _ _ _ hou hov
  have h2 : face * (p.out_size * p.out_size) + (ou * p.out_size + ov)
      < 6 * (p.out_size * p.out_size) := face_texel_lt _ _ _ _ hface hou hov
  have e0 : g * (6 * (p.out_size * p.out_size)) + face * (p.out_size * p.out_size)
      + ou * p.out_size + ov
      = g * (6 * (p.out_size * p.out_size))
        + (face * (p.out_size * p.out_size) + (ou * p.out_size + ov)) := by ring
  rw [e0]
  simp only [fdTexel]
  rw [decomp_div (6 * (p.out_size * p.out_size)) g _ (by positivity) h2,
    decomp_mod (6 * (p.out_size * p.out_size)) g _ h2,
    decomp_div (p.out_size * p.out_size) face _ (by positivity) h1,
    decomp_mod (p.out_size * p.out_size) face _ h1,
    decomp_div p.out_size ou ov hS hov,
    decomp_mod p.out_size ou ov hov]

/-! ### C1: the FD pass writes exactly the spec stencil -/

/-- **C1.** For every glyph `g`, face, and output texel `(ou, ov)` with
`ou, ov ∈ [0, output_grid_size)`, the finite-difference pass writes the
4-tuple `(val, du, dv, dudv)` computed from the internal per-face grid `V`
at `iu = ou + start_offset`, `iv = ov + start_offset` by exactly the
4th-order central-difference stencil with coefficients `c1 = 8/12`,
`c2 = -1/12`: `val = V[iu,iv]`, `du`/`dv` the `c1`/`c2` stencil along
columns/rows, and `dudv` the same stencil across rows applied to the
u-derivative at rows `iu±1`, `iu±2` (`spec4`).  The hypothesis `2 ≤ start`
records the regime in which natural-number subtraction agrees with the
kernel's `u32` subtraction. -/
theorem fd_pass_writes_spec_stencil (p : FDParams) (values : ℕ → ℚ) (init : ℕ → Rec4)
    (g face ou ov : ℕ) (hg : g < p.glyph_count) (hface : face < 6)
    (hou : ou < p.out_size) (hov : ov < p.out_size) (hstart : 2 ≤ p.start)
    (htt : p.total_texels = p.glyph_count * (6 * (p.out_size * p.out_size))) :
    fdRun p values init
        (g * (6 * (p.out_size * p.out_size)) + face * (p.out_size * p.out_size)
          + ou * p.out_size + ov)
      = spec4
          (fun r c => values (g * 6 * (p.size_internal * p.size_internal)
            + face * (p.size_internal * p.size_internal) + r * p.size_internal + c))
          (ou + p.start) (ov + p.start) := by
  have hlt : g * (6 * (p.out_size * p.out_size)) + face * (p.out_size * p.out_size)
      + ou * p.out_size + ov < p.total_texels := by
    rw [htt]
    have h2 := face_texel_lt p.out_size face ou ov hface hou hov
    have h3 := block_lt g p.glyph_count
      (face * (p.out_size * p.out_size) + (ou * p.out_size + ov))
      (6 * (p.out_size * p.out_size)) hg h2
    omega
  rw [fdRun_apply, if_pos hlt, fdTexel_eq p values g face ou ov hface hou hov]
  rfl

theorem fd_pass_writes_spec_stencil_witness :
    ((0 < 1 ∧ 1 < 6 ∧ 0 < 4 ∧ (2 : ℕ) ≤ 2) ∧ (96 : ℕ) = 1 * (6 * (4 * 4)))
    ∧ fdRun ⟨1, 8, 4, 2, 96⟩ (fun i => (i : ℚ)) (fun _ => (0, 0, 0, 0))
        (0 * (6 * (4 * 4)) + 1 * (4 * 4) + 0 * 4 + 0)
      = spec4 (fun r c => ((0 * 6 * (8 * 8) + 1 * (8 * 8) + r * 8 + c : ℕ) : ℚ))
          (0 + 2) (0 + 2) :=
  ⟨⟨⟨by decide, by decide, by decide, by decide⟩, by decide⟩,
    fd_pass_writes_spec_stencil ⟨1, 8, 4, 2, 96⟩ (fun i => (i : ℚ)) (fun _ => (0, 0, 0, 0))
      0 1 0 0 (by decide) (by decide) (by decide) (by decide) (by decide) (by decide)⟩

/-! ### C2: the matmul pass computes the dot products, once each, in order -/

/-- **C2.** After the matmul dispatch, every flat index
`idx < glyph_count * total_dirs` holds
`Σ_c coefficients[g, c] · basis[d, c]` with `g = idx / total_dirs`,
`d = idx % total_dirs`, accumulated left-to-right over increasing
coefficient index (the `foldl` conjunct); indices outside the range are
never written (the buffer keeps its initial contents), and any single
invocation writes no cell but its own index, so each in-range index is
computed exactly once (by exactly its own invocation). -/
theorem matmul_pass_correct (p : MatmulParams) (coeffs basis init : ℕ → ℚ) (idx : ℕ) :
    (idx < p.glyph_count * p.total_dirs →
      matmulRun p coeffs basis init idx
        = Finset.sum (Finset.range p.n_coeffs)
            (fun c => coeffs (idx / p.total_dirs * p.n_coeffs + c)
              * basis (idx % p.total_dirs * p.n_coeffs + c))
      ∧ matmulRun p coeffs basis init idx
        = (List.range p.n_coeffs).foldl
            (fun acc c => acc + coeffs (idx / p.total_dirs * p.n_coeffs + c)
              * basis (idx % p.total_dirs * p.n_coeffs + c)) 0)
    ∧ (p.glyph_count * p.total_dirs ≤ idx → matmulRun p coeffs basis init idx = init idx)
    ∧ (∀ i j : ℕ, ∀ buf : ℕ → ℚ, j ≠ i →
        kernelStep (p.glyph_count * p.total_dirs) (matmulAt p coeffs basis) buf i j
          = buf j) := by
  refine ⟨fun h => ?_, fun h => ?_, fun i j buf hne => kernelStep_ne _ _ _ _ _ hne⟩
  · have he : matmulRun p coeffs basis init idx = matmulAt p coeffs basis idx := by
      rw [matmulRun_apply, if_pos h]
    refine ⟨?_, ?_⟩
    · rw [he]
      simp only [matmulAt]
      exact foldl_add_eq_sum
        (fun c => coeffs (idx / p.total_dirs * p.n_coeffs + c)
          * basis (idx % p.total_dirs * p.n_coeffs + c)) p.n_coeffs
    · rw [he]
      rfl
  · rw [matmulRun_apply, if_neg (by omega)]

theorem matmul_pass_correct_witness :
    (1 < 1 * 2)
    ∧ matmulRun ⟨1, 2, 2⟩ (fun i => (i : ℚ) + 1) (fun i => (i : ℚ)) (fun _ => 37) 1
      = Finset.sum (Finset.range 2)
          (fun c => (((1 / 2 * 2 + c : ℕ) : ℚ) + 1) * ((1 % 2 * 2 + c : ℕ) : ℚ)) :=
  ⟨by decide,
    ((matmul_pass_correct ⟨1, 2, 2⟩ (fun i => (i : ℚ) + 1) (fun i => (i : ℚ))
      (fun _ => 37) 1).1 (by decide)).1⟩

/-! ### C6: grid geometry -/

/-- Grid geometry computed at the top of `populate_hermite_lut_cube_gpu`
(src lines 285–290): `N = lut_res`, internal padding `g_internal = 3`,
output padding `g = 1`.  Returns `(size_internal, out_size, start)`. -/
def computeGeometry (lut_res : ℕ) : ℕ × ℕ × ℕ :=
  let N := lut_res
  let g_internal := 3
  let size_internal := N + 2 * g_internal
  let g := 1
  let out_size := N + 2 * g
  let start := g_internal - g
  (size_internal, out_size, start)

/-- **C6.** For every `lut_res ≥ 2`, the bake computes
`internal_grid_size = lut_res + 6`, `output_grid_size = lut_res + 2`, and
stencil read offset `start = 3 - 1 = 2`; consequently the FD kernel's
output cell `(0,0)` (of glyph 0, face 0, i.e. flat index 0) reads its
`val` from internal cell `(2,2)`, at flat offset `2 * size_internal + 2`. -/
theorem grid_geometry_invariant (lut_res : ℕ) (h : 2 ≤ lut_res) :
    computeGeometry lut_res = (lut_res + 6, lut_res + 2, 2)
    ∧ (∀ (p : FDParams) (values : ℕ → ℚ), p.size_internal = lut_res + 6 → p.start = 2 →
        (fdTexel p values 0).1 = values (2 * (lut_res + 6) + 2)) := by
  refine ⟨rfl, fun p values hSi hst => ?_⟩
  simp only [fdTexel, fdCore]
  simp [hSi, hst]

theorem grid_geometry_invariant_witness :
    (2 ≤ 2) ∧ computeGeometry 2 = (8, 4, 2) :=
  ⟨by decide, (grid_geometry_invariant 2 (by decide)).1⟩

/-! ### C7: every stencil read is in bounds -/

/-- The 25 internal-grid cells `(row, col)` read by one FD invocation for
output texel `(ou, ov)`, in source order (src lines 126–156): the centre
value, the 4 `du` reads, the 4 `dv` reads, and the 16 `dudv` reads. -/
def fdReads (start ou ov : ℕ) : List (ℕ × ℕ) :=
  let iu := ou + start
  let iv := ov + start
  [(iu, iv),
   (iu, iv + 1), (iu, iv - 1), (iu, iv + 2), (iu, iv - 2),
   (iu + 1, iv), (iu - 1, iv), (iu + 2, iv), (iu - 2, iv),
   (iu + 1, iv + 1), (iu + 1, iv - 1), (iu + 1, iv + 2), (iu + 1, iv - 2),
   (iu - 1, iv + 1), (iu - 1, iv - 1), (iu - 1, iv + 2), (iu - 1, iv - 2),
   (iu + 2, iv + 1), (iu + 2, iv - 1), (iu + 2, iv + 2), (iu + 2, iv - 2),
   (iu - 2, iv + 1), (iu - 2, iv - 1), (iu - 2, iv + 2), (iu - 2, iv - 2)]

/-- The FD kernel body reads the internal grid only at the cells listed in
`fdReads`: two read functions that agree there produce the same record. -/
lemma fdCore_congr_reads (start ou ov : ℕ) (read₁ read₂ : ℕ → ℕ → ℚ)
    (h : ∀ pr ∈ fdReads start ou ov, read₁ pr.1 pr.2 = read₂ pr.1 pr.2) :
    fdCore read₁ (ou + start) (ov + start) = fdCore read₂ (ou + start) (ov + start) := by
  have t1 : read₁ (ou + start) (ov + start) = read₂ (ou + start) (ov + start) :=
    h (ou + start, ov + start) (by simp [fdReads])
  have t2 : read₁ (ou + start) (ov + start + 1) = read₂ (ou + start) (ov + start + 1) :=
    h (ou + start, ov + start + 1) (by simp [fdReads])
  have t3 : read₁ (ou + start) (ov + start - 1) = read₂ (ou + start) (ov + start - 1) :=
    h (ou + start, ov + start - 1) (by simp [fdReads])
  have t4 : read₁ (ou + start) (ov + start + 2) = read₂ (ou + start) (ov + start + 2) :=
    h (ou + start, ov + start + 2) (by simp [fdReads])
  have t5 : read₁ (ou + start) (ov + start - 2) = read₂ (ou + start) (ov + start - 2) :=
    h (ou + start, ov + start - 2) (by simp [fdReads])
  have t6 : read₁ (ou + start + 1) (ov + start) = read₂ (ou + start + 1) (ov + start) :=
    h (ou + start + 1, ov + start) (by simp [fdReads])
  have t7 : read₁ (ou + start - 1) (ov + start) = read₂ (ou + start - 1) (ov + start) :=
    h (ou + start - 1, ov + start) (by simp [fdReads])
  have t8 : read₁ (ou + start + 2) (ov + start) = read₂ (ou + start + 2) (ov + start) :=
    h (ou + start + 2, ov + start) (by simp [fdReads])
  have t9 : read₁ (ou + start - 2) (ov + start) = read₂ (ou + start - 2) (ov + start) :=
    h (ou + start - 2, ov + start) (by simp [fdReads])
  have t10 : read₁ (ou + start + 1) (ov + start + 1) = read₂ (ou + start + 1) (ov + start + 1) :=
    h (ou + start + 1, ov + start + 1) (by simp [fdReads])
  have t11 : read₁ (ou + start + 1) (ov + start - 1) = read₂ (ou + start + 1) (ov + start - 1) :=
    h (ou + start + 1, ov + start - 1) (by simp [fdReads])
  have t12 : read₁ (ou + start + 1) (ov + start + 2) = read₂ (ou + start + 1) (ov + start + 2) :=
    h (ou + start + 1, ov + start + 2) (by simp [fdReads])
  have t13 : read₁ (ou + start + 1) (ov + start - 2) = read₂ (ou + start + 1) (ov + start - 2) :=
    h (ou + start + 1, ov + start - 2) (by simp [fdReads])
  have t14 : read₁ (ou + start - 1) (ov + start + 1) = read₂ (ou + start - 1) (ov + start + 1) :=
    h (ou + start - 1, ov + start + 1) (by simp [fdReads])
  have t15 : read₁ (ou + start - 1) (ov + start - 1) = read₂ (ou + start - 1) (ov + start - 1) :=
    h (ou + start - 1, ov + start - 1) (by simp [fdReads])
  have t16 : read₁ (ou + start - 1) (ov + start + 2) = read₂ (ou + start - 1) (ov + start + 2) :=
    h (ou + start - 1, ov + start + 2) (by simp [fdReads])
  have t17 : read₁ (ou + start - 1) (ov + start - 2) = read₂ (ou + start - 1) (ov + start - 2) :=
    h (ou + start - 1, ov + start - 2) (by simp [fdReads])
  have t18 : read₁ (ou + start + 2) (ov + start + 1) = read₂ (ou + start + 2) (ov + start + 1) :=
    h (ou + start + 2, ov + start + 1) (by simp [fdReads])
  have t19 : read₁ (ou + start + 2) (ov + start - 1) = read₂ (ou + start + 2) (ov + start - 1) :=
    h (ou + start + 2, ov + start - 1) (by simp [fdReads])
  have t20 : read₁ (ou + start + 2) (ov + start + 2) = read₂ (ou + start + 2) (ov + start + 2) :=
    h (ou + start + 2, ov + start + 2) (by simp [fdReads])
  have t21 : read₁ (ou + start + 2) (ov + start - 2) = read₂ (ou + start + 2) (ov + start - 2) :=
    h (ou + start + 2, ov + start - 2) (by simp [fdReads])
  have t22 : read₁ (ou + start - 2) (ov + start + 1) = read₂ (ou + start - 2) (ov + start + 1) :=
    h (ou + start - 2, ov + start + 1) (by simp [fdReads])
  have t23 : read₁ (ou + start - 2) (ov + start - 1) = read₂ (ou + start - 2) (ov + start - 1) :=
    h (ou + start - 2, ov + start - 1) (by simp [fdReads])
  have t24 : read₁ (ou + start - 2) (ov + start + 2) = read₂ (ou + start - 2) (ov + start + 2) :=
    h (ou + start - 2, ov + start + 2) (by simp [fdReads])
  have t25 : read₁ (ou + start - 2) (ov + start - 2) = read₂ (ou + start - 2) (ov + start - 2) :=
    h (ou + start - 2, ov + start - 2) (by simp [fdReads])
  simp only [fdCore, t1, t2, t3, t4, t5, t6, t7, t8, t9, t10, t11, t12, t13, t14, t15,
    t16, t17, t18, t19, t20, t21, t22, t23, t24, t25]

/-- **C7.** For every output texel `(ou, ov)` with `ou, ov < output_grid_size`,
with `start = 2` and `internal_grid_size = output_grid_size + 4`, every
internal-grid index read by the FD stencil lies in
`[ou+start-2, ou+start+2] × [ov+start-2, ov+start+2]` and stays inside
`[0, internal_grid_size)` on both axes; the unsigned subtractions `iu-2`,
`iv-2` never underflow (`iu, iv ≥ 2`); and the kernel body touches no cell
outside the listed read set. -/
theorem fd_stencil_reads_in_bounds (S Si start ou ov : ℕ)
    (hSi : Si = S + 4) (hstart : start = 2) (hou : ou < S) (hov : ov < S) :
    (∀ pr ∈ fdReads start ou ov,
        ou + start - 2 ≤ pr.1 ∧ pr.1 ≤ ou + start + 2 ∧ pr.1 < Si
        ∧ ov + start - 2 ≤ pr.2 ∧ pr.2 ≤ ov + start + 2 ∧ pr.2 < Si)
    ∧ (2 ≤ ou + start ∧ 2 ≤ ov + start)
    ∧ (∀ read₁ read₂ : ℕ → ℕ → ℚ,
        (∀ pr ∈ fdReads start ou ov, read₁ pr.1 pr.2 = read₂ pr.1 pr.2) →
        fdCore read₁ (ou + start) (ov + start) = fdCore read₂ (ou + start) (ov + start)) := by
  subst hSi hstart
  refine ⟨?_, ⟨by omega, by omega⟩, fun r₁ r₂ h => fdCore_congr_reads 2 ou ov r₁ r₂ h⟩
  intro pr hpr
  fin_cases hpr <;> dsimp only <;> omega

theorem fd_stencil_reads_in_bounds_witness :
    ((6 : ℕ) = 2 + 4 ∧ (2 : ℕ) = 2 ∧ 1 < 2 ∧ 0 < 2)
    ∧ (2 ≤ 1 + 2 ∧ 2 ≤ 0 + 2) :=
  ⟨⟨by decide, by decide, by decide, by decide⟩,
    (fd_stencil_reads_in_bounds 2 6 2 1 0 (by decide) (by decide) (by decide)
      (by decide)).2.1⟩

/-! ### Basis matrix, truncation (src lines 298–303) and the basis cache -/

/-- A CPU-side matrix: `data i j` is the entry at row `i`, column `j`;
`rows`/`cols` record the shape (`ndarray.shape`). -/
structure Mat where
  rows : ℕ
  cols : ℕ
  data : ℕ → ℕ → ℚ

/-- Basis truncation as performed by `populate_hermite_lut_cube_gpu`
(src lines 301–302): `if basis_flat.shape[1] > n_coeffs:
basis_flat = basis_flat[:, :n_coeffs]` — numpy column slicing keeps the
first `n_coeffs` columns and leaves every kept entry unchanged. -/
def truncateBasis (basisM : Mat) (n_coeffs : ℕ) : Mat :=
  if n_coeffs < basisM.cols then ⟨basisM.rows, n_coeffs, basisM.data⟩ else basisM

/-- Row-major flattening of a matrix, as uploaded to the GPU storage buffer:
flat index `i` holds entry `(i / cols, i % cols)`. -/
def flattenMat (m : Mat) : ℕ → ℚ :=
  fun i => m.data (i / m.cols) (i % m.cols)

/-- The flat view of the chunk's coefficient slice
`coeffs_data[glyph_offset : glyph_offset + chunk_glyphs]` (src lines
325–328) as read by the matmul kernel: flat index `i` is coefficient
`i % n_coeffs` of chunk glyph `i / n_coeffs`, i.e. of global glyph
`glyph_offset + i / n_coeffs`.  The coefficient columns themselves are
passed through unchanged. -/
def chunkCoeffsFlat (coeffs : ℕ → ℕ → ℚ) (n_coeffs glyph_offset : ℕ) : ℕ → ℚ :=
  fun i => coeffs (glyph_offset + i / n_coeffs) (i % n_coeffs)

/-- **C9.** When the built basis matrix has more columns than the requested
coefficient count, the bake keeps exactly the first `n_coeffs` basis
columns with their entries unchanged, drops no coefficient column
(the coefficient slice is passed through untruncated), and the matmul then
runs over exactly `n_coeffs` aligned columns: with `C = n_coeffs` it
multiplies coefficient `c` with original basis entry `basis[d, c]` for
`c < n_coeffs` only. -/
theorem basis_truncation_keeps_coeff_columns (basisM : Mat) (n_coeffs : ℕ)
    (h : n_coeffs < basisM.cols) :
    (truncateBasis basisM n_coeffs).cols = n_coeffs
    ∧ (truncateBasis basisM n_coeffs).rows = basisM.rows
    ∧ (∀ d c : ℕ, (truncateBasis basisM n_coeffs).data d c = basisM.data d c)
    ∧ (∀ (coeffs : ℕ → ℕ → ℚ) (off i : ℕ),
        chunkCoeffsFlat coeffs n_coeffs off i = coeffs (off + i / n_coeffs) (i % n_coeffs))
    ∧ (∀ (cf : ℕ → ℚ) (k D idx : ℕ),
        matmulAt ⟨k, D, n_coeffs⟩ cf (flattenMat (truncateBasis basisM n_coeffs)) idx
          = (List.range n_coeffs).foldl
              (fun acc c => acc + cf (idx / D * n_coeffs + c)
                * basisM.data (idx % D) c) 0) := by
  have hc : (truncateBasis basisM n_coeffs).cols = n_coeffs := by
    unfold truncateBasis
    rw [if_pos h]
  refine ⟨hc, ?_, ?_, fun coeffs off i => rfl, ?_⟩
  · unfold truncateBasis
    rw [if_pos h]
  · intro d c
    unfold truncateBasis
    rw [if_pos h]
  · intro cf k D idx
    simp only [matmulAt]
    apply List.foldl_ext
    intro acc c hcmem
    have hclt : c < n_coeffs := List.mem_range.mp hcmem
    have hpos : 0 < n_coeffs := by omega
    unfold flattenMat
    rw [hc, decomp_div n_coeffs (idx % D) c hpos hclt, decomp_mod n_coeffs (idx % D) c hclt]
    have hd : (truncateBasis basisM n_coeffs).data (idx % D) c = basisM.data (idx % D) c := by
      unfold truncateBasis
      rw [if_pos h]
    rw [hd]

theorem basis_truncation_keeps_coeff_columns_witness :
    (2 < 3)
    ∧ (truncateBasis ⟨2, 3, fun d c => (d : ℚ) * 10 + (c : ℚ)⟩ 2).cols = 2 :=
  ⟨by decide,
    (basis_truncation_keeps_coeff_columns ⟨2, 3, fun d c => (d : ℚ) * 10 + (c : ℚ)⟩ 2
      (by decide)).1⟩

/-! ### C5: the basis cache of `_build_basis_matrices_flat` -/

/-- Model of `_build_basis_matrices_flat` (src lines 218–268), focused on its
caching behaviour.  The body of the function — the direction-grid
construction and the external `create_sh_basis_matrix` evaluation — is
abstracted as the pure function `compute` from the key `(l_max, lut_res)`
to the result `(basis_flat, size_internal)`.  The cache handling is
modelled exactly as written: the function runs the body unconditionally,
stores the result into the cache under the key (src line 267,
`_BASIS_CACHE[(l_max, lut_res)] = result`), and returns the freshly
computed result; no cache lookup appears anywhere in the source body.
The final `ℕ` counts the body evaluations performed by the call. -/
def build_basis_matrices_flat (compute : ℕ → ℕ → Mat × ℕ)
    (cache : List ((ℕ × ℕ) × (Mat × ℕ))) (l_max lut_res : ℕ) :
    (Mat × ℕ) × List ((ℕ × ℕ) × (Mat × ℕ)) × ℕ :=
  let result := compute l_max lut_res
  (result, ((l_max, lut_res), result) :: cache, 1)

/-- **C5 (refuting the claimed memoization).** Every call to
`_build_basis_matrices_flat` performs exactly one full body evaluation and
returns the freshly computed result, regardless of the cache contents — in
particular the second of two successive calls with the same
`(l_max, lut_res)` key, whose cache already stores the first call's result,
recomputes instead of consulting the cache. -/
theorem basis_cache_never_consulted (compute : ℕ → ℕ → Mat × ℕ)
    (cache cache' : List ((ℕ × ℕ) × (Mat × ℕ))) (l_max lut_res : ℕ) :
    (build_basis_matrices_flat compute cache l_max lut_res).2.2 = 1
    ∧ (build_basis_matrices_flat compute cache l_max lut_res).1
        = (build_basis_matrices_flat compute cache' l_max lut_res).1
    ∧ (build_basis_matrices_flat compute cache l_max lut_res).1 = compute l_max lut_res :=
  ⟨rfl, rfl, rfl⟩

/-! ### The per-chunk numeric pipeline (src lines 323–479, pure core) -/

/-- The `values` buffer produced by the matmul pass for one chunk of
`chunk_glyphs` glyphs starting at `glyph_offset` (src lines 330–399):
kernel parameters `[chunk_glyphs, total_dirs, n_coeffs]` (src line 335),
coefficient buffer holding the chunk's slice, basis buffer `basisFlat`.
Geometry per src lines 285–293: `size_internal = lut_res + 6`,
`total_dirs = 6 * size_internal²`.  The `values_buf` storage buffer is
created uninitialised (src line 346); its initial contents are modelled as
zeros — the FD pass only ever reads cells the matmul dispatch wrote. -/
def chunkValues (coeffs : ℕ → ℕ → ℚ) (basisFlat : ℕ → ℚ)
    (n_coeffs lut_res glyph_offset chunk_glyphs : ℕ) : ℕ → ℚ :=
  matmulRun ⟨chunk_glyphs, 6 * ((lut_res + 6) * (lut_res + 6)), n_coeffs⟩
    (chunkCoeffsFlat coeffs n_coeffs glyph_offset) basisFlat (fun _ => 0)

/-- The Hermite LUT records read back for one chunk (src lines 401–471): the
FD dispatch over the chunk's `values` buffer followed by the readback of
`total_texels` records.  FD parameters per src lines 404–415:
`[chunk_glyphs, size_internal, out_size, start, total_texels]` with
`out_size = lut_res + 2`, `start = 2`,
`total_texels = chunk_glyphs * 6 * out_size²`.  The FD output buffer is
likewise created uninitialised (zeros here; the dispatch writes every cell
below `total_texels`). -/
def chunkRecords (coeffs : ℕ → ℕ → ℚ) (basisFlat : ℕ → ℚ)
    (n_coeffs lut_res glyph_offset chunk_glyphs : ℕ) : List Rec4 :=
  (List.range (chunk_glyphs * (6 * ((lut_res + 2) * (lut_res + 2))))).map
    (fdRun
      ⟨chunk_glyphs, lut_res + 6, lut_res + 2, 2,
        chunk_glyphs * (6 * ((lut_res + 2) * (lut_res + 2)))⟩
      (chunkValues coeffs basisFlat n_coeffs lut_res glyph_offset chunk_glyphs)
      (fun _ => (0, 0, 0, 0)))

/-- All records written across a chunk plan, concatenated in chunk order;
chunk `i` covers the contiguous glyph range starting at the sum of the
previous chunk sizes (the `glyph_offset` accumulation of src lines 323 and
479). -/
def bakeRecordsFrom (coeffs : ℕ → ℕ → ℚ) (basisFlat : ℕ → ℚ)
    (n_coeffs lut_res : ℕ) : List ℕ → ℕ → List Rec4
  | [], _ => []
  | k :: rest, glyph_offset =>
      chunkRecords coeffs basisFlat n_coeffs lut_res glyph_offset k
        ++ bakeRecordsFrom coeffs basisFlat n_coeffs lut_res rest (glyph_offset + k)

/-- The concatenation over all chunks of the records written to the caller's
destination buffers, for a given chunk plan. -/
def bakeAllRecords (coeffs : ℕ → ℕ → ℚ) (basisFlat : ℕ → ℚ)
    (n_coeffs lut_res : ℕ) (plan : List ℕ) : List Rec4 :=
  bakeRecordsFrom coeffs basisFlat n_coeffs lut_res plan 0

/-- Derived form: the matmul value of global glyph `G` at flat direction
`d`, independent of any chunking. -/
def glyphDot (coeffs : ℕ → ℕ → ℚ) (basisFlat : ℕ → ℚ) (n_coeffs G d : ℕ) : ℚ :=
  (List.range n_coeffs).foldl
    (fun acc c => acc + coeffs G c * basisFlat (d * n_coeffs + c)) 0

/-- Derived form: the FD record at flat texel `t` (face/row/col) of global
glyph `G`, independent of any chunking. -/
def glyphRecord (coeffs : ℕ → ℕ → ℚ) (basisFlat : ℕ → ℚ)
    (n_coeffs lut_res G t : ℕ) : Rec4 :=
  fdTexel ⟨1, lut_res + 6, lut_res + 2, 2, 6 * ((lut_res + 2) * (lut_res + 2))⟩
    (glyphDot coeffs basisFlat n_coeffs G) t

/-- All cells of the stencil read set lie within 4 of the output texel and
inside the internal grid (`start = 2`, internal size `S + 4`). -/
lemma fdReads_bounds (S ou ov : ℕ) (hou : ou < S) (hov : ov < S) :
    ∀ pr ∈ fdReads 2 ou ov,
      pr.1 < S + 4 ∧ pr.2 < S + 4 := by
  intro pr hpr
  fin_cases hpr <;> dsimp only <;> omega

lemma face_read_lt (Si face r c : ℕ) (hf : face < 6) (hr : r < Si) (hc : c < Si) :
    0 * 6 * (Si * Si) + face * (Si * Si) + r * Si + c < 6 * (Si * Si) := by
  have h1 : r * Si + c < Si * Si := block_lt r Si c Si hr hc
  have h2 : face * (Si * Si) + (r * Si + c) < 6 * (Si * Si) :=
    block_lt face 6 (r * Si + c) (Si * Si) hf h1
  omega

/-- Inside the chunk's `values` buffer, cell `vidx` holds the dot product of
global glyph `glyph_offset + vidx / total_dirs` with direction
`vidx % total_dirs`. -/
lemma chunkValues_eq (coeffs : ℕ → ℕ → ℚ) (basisFlat : ℕ → ℚ)
    (n_coeffs lut_res off k vidx : ℕ)
    (h : vidx < k * (6 * ((lut_res + 6) * (lut_res + 6)))) :
    chunkValues coeffs basisFlat n_coeffs lut_res off k vidx
      = glyphDot coeffs basisFlat n_coeffs
          (off + vidx / (6 * ((lut_res + 6) * (lut_res + 6))))
          (vidx % (6 * ((lut_res + 6) * (lut_res + 6)))) := by
  unfold chunkValues
  rw [matmulRun_apply, if_pos h]
  simp only [matmulAt, glyphDot]
  apply List.foldl_ext
  intro acc c hcmem
  have hclt : c < n_coeffs := List.mem_range.mp hcmem
  have hpos : 0 < n_coeffs := by omega
  simp only [chunkCoeffsFlat]
  rw [decomp_div n_coeffs _ c hpos hclt, decomp_mod n_coeffs _ c hclt]

/-- `fdTexel_eq` restated for an explicit parameter record, so the grid
sizes appear literally in the statement. -/
lemma fdTexel_eq' (kk Si S st tt : ℕ) (v : ℕ → ℚ) (g face ou ov : ℕ)
    (hface : face < 6) (hou : ou < S) (hov : ov < S) :
    fdTexel ⟨kk, Si, S, st, tt⟩ v
        (g * (6 * (S * S)) + face * (S * S) + ou * S + ov)
      = fdCore (fun r c => v (g * 6 * (Si * Si) + face * (Si * Si) + r * Si + c))
          (ou + st) (ov + st) :=
  fdTexel_eq ⟨kk, Si, S, st, tt⟩ v g face ou ov hface hou hov

/-- Decomposition of a flat per-glyph texel index into face, row, col. -/
lemma texel_decomp (S t : ℕ) (ht : t < 6 * (S * S)) :
    t / (S * S) < 6 ∧ t % (S * S) / S < S ∧ t % (S * S) % S < S
    ∧ t = t / (S * S) * (S * S) + (t % (S * S) / S * S + t % (S * S) % S) := by
  have hS : 0 < S := by
    rcases Nat.eq_zero_or_pos S with h0 | h0
    · subst h0; simp at ht
    · exact h0
  have hSS : 0 < S * S := by positivity
  refine ⟨(Nat.div_lt_iff_lt_mul hSS).mpr ht,
    (Nat.div_lt_iff_lt_mul hS).mpr (Nat.mod_lt _ hSS), Nat.mod_lt _ hS, ?_⟩
  have h1 := Nat.div_add_mod' t (S * S)
  have h2 := Nat.div_add_mod' (t % (S * S)) S
  omega

/-- Texel `gp * B + t` of a chunk's FD output (glyph `gp` within the chunk,
`t` the per-glyph texel index) equals the chunk-independent record of
global glyph `glyph_offset + gp`. -/
lemma chunk_texel_eq (coeffs : ℕ → ℕ → ℚ) (basisFlat : ℕ → ℚ)
    (n_coeffs lut_res off k gp t : ℕ) (hgp : gp < k)
    (ht : t < 6 * ((lut_res + 2) * (lut_res + 2))) :
    fdTexel
        ⟨k, lut_res + 6, lut_res + 2, 2, k * (6 * ((lut_res + 2) * (lut_res + 2)))⟩
        (chunkValues coeffs basisFlat n_coeffs lut_res off k)
        (gp * (6 * ((lut_res + 2) * (lut_res + 2))) + t)
      = glyphRecord coeffs basisFlat n_coeffs lut_res (off + gp) t := by
  obtain ⟨hface, hou, hov, ht_eq⟩ := texel_decomp (lut_res + 2) t ht
  have hidx : gp * (6 * ((lut_res + 2) * (lut_res + 2))) + t
      = gp * (6 * ((lut_res + 2) * (lut_res + 2)))
        + t / ((lut_res + 2) * (lut_res + 2)) * ((lut_res + 2) * (lut_res + 2))
        + t % ((lut_res + 2) * (lut_res + 2)) / (lut_res + 2) * (lut_res + 2)
        + t % ((lut_res + 2) * (lut_res + 2)) % (lut_res + 2) := by omega
  have ht_eq0 : t
      = 0 * (6 * ((lut_res + 2) * (lut_res + 2)))
        + t / ((lut_res + 2) * (lut_res + 2)) * ((lut_res + 2) * (lut_res + 2))
        + t % ((lut_res + 2) * (lut_res + 2)) / (lut_res + 2) * (lut_res + 2)
        + t % ((lut_res + 2) * (lut_res + 2)) % (lut_res + 2) := by omega
  rw [hidx]
  rw [fdTexel_eq' k (lut_res + 6) (lut_res + 2) 2
    (k * (6 * ((lut_res + 2) * (lut_res + 2))))
    (chunkValues coeffs basisFlat n_coeffs lut_res off k)
    gp _ _ _ hface hou hov]
  unfold glyphRecord
  conv_rhs => rw [ht_eq0]
  rw [fdTexel_eq' 1 (lut_res + 6) (lut_res + 2) 2
    (6 * ((lut_res + 2) * (lut_res + 2)))
    (glyphDot coeffs basisFlat n_coeffs (off + gp))
    0 _ _ _ hface hou hov]
  apply fdCore_congr_reads
  intro pr hpr
  obtain ⟨hr1, hr2⟩ := fdReads_bounds (lut_res + 2)
    (t % ((lut_res + 2) * (lut_res + 2)) / (lut_res + 2))
    (t % ((lut_res + 2) * (lut_res + 2)) % (lut_res + 2)) hou hov pr hpr
  have hr1' : pr.1 < lut_res + 6 := by omega
  have hr2' : pr.2 < lut_res + 6 := by omega
  have harg : gp * 6 * ((lut_res + 6) * (lut_res + 6))
        + t / ((lut_res + 2) * (lut_res + 2)) * ((lut_res + 6) * (lut_res + 6))
        + pr.1 * (lut_res + 6) + pr.2
      = gp * (6 * ((lut_res + 6) * (lut_res + 6)))
        + (t / ((lut_res + 2) * (lut_res + 2)) * ((lut_res + 6) * (lut_res + 6))
          + (pr.1 * (lut_res + 6) + pr.2)) := by ring
  rw [harg]
  have hq : t / ((lut_res + 2) * (lut_res + 2)) * ((lut_res + 6) * (lut_res + 6))
      + (pr.1 * (lut_res + 6) + pr.2) < 6 * ((lut_res + 6) * (lut_res + 6)) :=
    block_lt _ 6 _ _ hface
      (block_lt pr.1 (lut_res + 6) pr.2 (lut_res + 6) hr1' hr2')
  have hvlt : gp * (6 * ((lut_res + 6) * (lut_res + 6)))
      + (t / ((lut_res + 2) * (lut_res + 2)) * ((lut_res + 6) * (lut_res + 6))
        + (pr.1 * (lut_res + 6) + pr.2)) < k * (6 * ((lut_res + 6) * (lut_res + 6))) :=
    block_lt gp k _ _ hgp hq
  rw [chunkValues_eq coeffs basisFlat n_coeffs lut_res off k _ hvlt,
    decomp_div (6 * ((lut_res + 6) * (lut_res + 6))) gp _ (by positivity) hq,
    decomp_mod (6 * ((lut_res + 6) * (lut_res + 6))) gp _ hq]
  congr 1
  ring

/-- A chunk's record list is the list of chunk-independent per-glyph
records of the global glyphs it covers. -/
lemma chunkRecords_eq (coeffs : ℕ → ℕ → ℚ) (basisFlat : ℕ → ℚ)
    (n_coeffs lut_res off k : ℕ) :
    chunkRecords coeffs basisFlat n_coeffs lut_res off k
      = (List.range (k * (6 * ((lut_res + 2) * (lut_res + 2))))).map
          (fun i => glyphRecord coeffs basisFlat n_coeffs lut_res
            (off + i / (6 * ((lut_res + 2) * (lut_res + 2))))
            (i % (6 * ((lut_res + 2) * (lut_res + 2))))) := by
  unfold chunkRecords
  apply List.map_congr_left
  intro i hi
  have hiB : i < k * (6 * ((lut_res + 2) * (lut_res + 2))) := List.mem_range.mp hi
  have hB : 0 < 6 * ((lut_res + 2) * (lut_res + 2)) := by positivity
  rw [fdRun_apply, if_pos hiB]
  have hmod : i % (6 * ((lut_res + 2) * (lut_res + 2)))
      < 6 * ((lut_res + 2) * (lut_res + 2)) := Nat.mod_lt _ hB
  have hdiv : i / (6 * ((lut_res + 2) * (lut_res + 2))) < k :=
    (Nat.div_lt_iff_lt_mul hB).mpr (by omega)
  have hi_eq : i
      = i / (6 * ((lut_res + 2) * (lut_res + 2))) * (6 * ((lut_res + 2) * (lut_res + 2)))
        + i % (6 * ((lut_res + 2) * (lut_res + 2))) := (Nat.div_add_mod' i _).symm
  conv_lhs => rw [hi_eq]
  exact chunk_texel_eq coeffs basisFlat n_coeffs lut_res off k _ _ hdiv hmod

/-- The records of a whole chunk plan, starting at any glyph offset, are
the per-glyph records of `plan.sum` consecutive glyphs. -/
lemma bakeRecordsFrom_eq (coeffs : ℕ → ℕ → ℚ) (basisFlat : ℕ → ℚ)
    (n_coeffs lut_res : ℕ) (plan : List ℕ) :
    ∀ off : ℕ,
      bakeRecordsFrom coeffs basisFlat n_coeffs lut_res plan off
        = (List.range (plan.sum * (6 * ((lut_res + 2) * (lut_res + 2))))).map
            (fun i => glyphRecord coeffs basisFlat n_coeffs lut_res
              (off + i / (6 * ((lut_res + 2) * (lut_res + 2))))
              (i % (6 * ((lut_res + 2) * (lut_res + 2))))) := by
  induction plan with
  | nil =>
    intro off
    simp [bakeRecordsFrom]
  | cons k rest ih =>
    intro off
    have hB : 0 < 6 * ((lut_res + 2) * (lut_res + 2)) := by positivity
    rw [show bakeRecordsFrom coeffs basisFlat n_coeffs lut_res (k :: rest) off
        = chunkRecords coeffs basisFlat n_coeffs lut_res off k
          ++ bakeRecordsFrom coeffs basisFlat n_coeffs lut_res rest (off + k) from rfl]
    rw [ih (off + k), chunkRecords_eq, List.sum_cons,
      show (k + rest.sum) * (6 * ((lut_res + 2) * (lut_res + 2)))
          = k * (6 * ((lut_res + 2) * (lut_res + 2)))
            + rest.sum * (6 * ((lut_res + 2) * (lut_res + 2))) from by ring,
      List.range_add, List.map_append, List.map_map]
    congr 1
    apply List.map_congr_left
    intro i hi
    simp only [Function.comp]
    have hd : (k * (6 * ((lut_res + 2) * (lut_res + 2))) + i)
          / (6 * ((lut_res + 2) * (lut_res + 2)))
        = k + i / (6 * ((lut_res + 2) * (lut_res + 2))) := by
      rw [Nat.mul_comm, Nat.mul_add_div hB]
    have hm : (k * (6 * ((lut_res + 2) * (lut_res + 2))) + i)
          % (6 * ((lut_res + 2) * (lut_res + 2)))
        = i % (6 * ((lut_res + 2) * (lut_res + 2))) := by
      rw [Nat.add_comm, Nat.add_mul_mod_self_right]
    rw [hd, hm, ← Nat.add_assoc]

/-! ### C8: chunking equivalence -/

/-- **C8.** For every total glyph count and every chunk plan of contiguous
partitions summing to the total, the concatenation over chunks of the
Hermite LUT records written to the caller's destination buffers equals the
records produced by baking all glyphs in a single chunk: chunk boundaries
change no output value. -/
theorem chunking_equivalence (coeffs : ℕ → ℕ → ℚ) (basisFlat : ℕ → ℚ)
    (n_coeffs lut_res glyph_count : ℕ) (plan : List ℕ)
    (hsum : plan.sum = glyph_count) :
    bakeAllRecords coeffs basisFlat n_coeffs lut_res plan
      = bakeAllRecords coeffs basisFlat n_coeffs lut_res [glyph_count] := by
  unfold bakeAllRecords
  rw [bakeRecordsFrom_eq coeffs basisFlat n_coeffs lut_res plan 0,
    bakeRecordsFrom_eq coeffs basisFlat n_coeffs lut_res [glyph_count] 0, hsum,
    List.sum_singleton]

theorem chunking_equivalence_witness :
    ([1, 1] : List ℕ).sum = 2
    ∧ bakeAllRecords (fun _ _ => 1) (fun _ => 1) 1 2 [1, 1]
      = bakeAllRecords (fun _ _ => 1) (fun _ => 1) 1 2 [2] :=
  ⟨rfl, chunking_equivalence (fun _ _ => 1) (fun _ => 1) 1 2 2 [1, 1] rfl⟩

/-! ### The orchestrator and its GPU-layer effects (src lines 271–491) -/

inductive GpuErr where
  | gpuFail
deriving DecidableEq

/-- Which GPU-layer calls succeed in a given environment; each flag models
whether the corresponding wgpu operation raises an exception. -/
structure GpuBehavior where
  deviceAvailable : Bool
  bufferOk : Bool
  shaderOk : Bool
  pipelineOk : Bool
  bindGroupOk : Bool
  dispatchOk : Bool
  readbackOk : Bool
deriving DecidableEq

/-- Observable orchestrator state: the number of buffer-creation calls made
so far, and the caller's destination buffers
(`actor._sh_hermite_lut_buffers`, indexed by chunk). -/
structure BakeSt where
  buffersCreated : ℕ
  dest : List (List Rec4)
deriving DecidableEq

/-- `_get_wgpu_device` (src lines 173–193): every exception inside is caught
(`except Exception: pass`) and converted to an absent device, so the
outcome is a device or `none` — never an error. -/
def getDevice (gb : GpuBehavior) : Option Unit :=
  if gb.deviceAvailable then some () else none

/-- A GPU call that creates no buffer: succeeds leaving the state unchanged,
or raises. -/
def gpuOp (ok : Bool) (s : BakeSt) : Except GpuErr BakeSt :=
  if ok then .ok s else .error .gpuFail

/-- `device.create_buffer` / `device.create_buffer_with_data`: one more
buffer-creation call, or an exception. -/
def opCreateBuffer (gb : GpuBehavior) (s : BakeSt) : Except GpuErr BakeSt :=
  if gb.bufferOk then .ok ⟨s.buffersCreated + 1, s.dest⟩ else .error .gpuFail

/-- `_get_pipelines` (src lines 199–215): with an empty pipeline cache it
compiles two shader modules and two compute pipelines, in source order;
none of these calls is guarded by a try/except. -/
def getPipelines (gb : GpuBehavior) (cacheFilled : Bool) (s : BakeSt) :
    Except GpuErr BakeSt :=
  if cacheFilled then .ok s
  else do
    let s ← gpuOp gb.shaderOk s
    let s ← gpuOp gb.pipelineOk s
    let s ← gpuOp gb.shaderOk s
    let s ← gpuOp gb.pipelineOk s
    .ok s

/-- The destination write of one chunk (src lines 476–477):
`actor._sh_hermite_lut_buffers[chunk_idx].data[:] = result`. -/
def writeDest (chunk_idx : ℕ) (result : List Rec4) (s : BakeSt) : BakeSt :=
  ⟨s.buffersCreated, s.dest.set chunk_idx result⟩

/-- The chunk loop of `populate_hermite_lut_cube_gpu` (src lines 323–486):
per chunk, in source order, five buffer creations (params1, coeffs, values,
params2, output), two bind groups, two dispatch submissions and a blocking
readback, then the destination write and the glyph-offset advance.
`narrow` models the external `astype(np.float16)` conversion applied to
each record when `use_float16` is set.  The per-chunk `destroy()` calls
release GPU handles and change no observable state. -/
def runChunks (gb : GpuBehavior) (coeffs : ℕ → ℕ → ℚ) (basisFlat : ℕ → ℚ)
    (n_coeffs lut_res : ℕ) (use_float16 : Bool) (narrow : Rec4 → Rec4) :
    List ℕ → ℕ → ℕ → BakeSt → Except GpuErr BakeSt
  | [], _, _, s => .ok s
  | chunk_glyphs :: rest, chunk_idx, glyph_offset, s => do
    let s ← opCreateBuffer gb s
    let s ← opCreateBuffer gb s
    let s ← opCreateBuffer gb s
    let s ← gpuOp gb.bindGroupOk s
    let s ← gpuOp gb.dispatchOk s
    let s ← opCreateBuffer gb s
    let s ← opCreateBuffer gb s
    let s ← gpuOp gb.bindGroupOk s
    let s ← gpuOp gb.dispatchOk s
    let s ← gpuOp gb.readbackOk s
    let result := chunkRecords coeffs basisFlat n_coeffs lut_res glyph_offset chunk_glyphs
    let result := if use_float16 then result.map narrow else result
    let s := writeDest chunk_idx result s
    runChunks gb coeffs basisFlat n_coeffs lut_res use_float16 narrow
      rest (chunk_idx + 1) (glyph_offset + chunk_glyphs) s

/-- `populate_hermite_lut_cube_gpu` (src lines 271–491).  The externally
supplied SH basis construction (`_build_basis_matrices_flat`, whose body is
the direction grid plus `create_sh_basis_matrix`) enters as the function
`shBasis` of `(l_max, lut_res)`; the actor state is `(l_max, coeffs)`;
`dest0` holds the initial contents of the caller's per-chunk destination
buffers.  The returned pair is the boolean result together with the
observable state.  There is no try/except in the source body, so a
GPU-layer exception after device acquisition escapes as `Except.error`. -/
def populate_hermite_lut_cube_gpu (gb : GpuBehavior) (pipelineCacheFilled : Bool)
    (shBasis : ℕ → ℕ → Mat) (narrow : Rec4 → Rec4)
    (l_max : ℕ) (coeffs : ℕ → ℕ → ℚ)
    (lut_res glyph_count n_coeffs : ℕ) (chunk_sizes : List ℕ)
    (use_float16 : Bool) (dest0 : List (List Rec4)) :
    Except GpuErr (Bool × BakeSt) :=
  match getDevice gb with
  | none => .ok (false, ⟨0, dest0⟩)
  | some _ => do
    let basisM := truncateBasis (shBasis l_max lut_res) n_coeffs
    let s ← opCreateBuffer gb ⟨0, dest0⟩
    let s ← getPipelines gb pipelineCacheFilled s
    let s ← runChunks gb coeffs (flattenMat basisM) n_coeffs lut_res use_float16
      narrow chunk_sizes 0 0 s
    .ok (true, s)

lemma populate_device_none_aux (gb : GpuBehavior) (pipelineCacheFilled : Bool)
    (shBasis : ℕ → ℕ → Mat) (narrow : Rec4 → Rec4) (l_max : ℕ)
    (coeffs : ℕ → ℕ → ℚ) (lut_res glyph_count n_coeffs : ℕ)
    (chunk_sizes : List ℕ) (use_float16 : Bool) (dest0 : List (List Rec4))
    (h : gb.deviceAvailable = false) :
    populate_hermite_lut_cube_gpu gb pipelineCacheFilled shBasis narrow l_max coeffs
        lut_res glyph_count n_coeffs chunk_sizes use_float16 dest0
      = .ok (false, ⟨0, dest0⟩) := by
  unfold populate_hermite_lut_cube_gpu getDevice
  rw [h]
  rfl

lemma populate_shader_fail_aux (po bgo dis rb : Bool)
    (shBasis : ℕ → ℕ → Mat) (narrow : Rec4 → Rec4) (l_max : ℕ)
    (coeffs : ℕ → ℕ → ℚ) (lut_res glyph_count n_coeffs : ℕ)
    (chunk_sizes : List ℕ) (use_float16 : Bool) (dest0 : List (List Rec4)) :
    populate_hermite_lut_cube_gpu ⟨true, true, false, po, bgo, dis, rb⟩ false
        shBasis narrow l_max coeffs lut_res glyph_count n_coeffs chunk_sizes
        use_float16 dest0
      = .error .gpuFail := rfl

/-! ### C4: device-acquisition failure -/

/-- **C4.** If device acquisition yields no device (`None`), the bake
returns `False` immediately: zero buffer-creation calls are made on this
path and the caller's destination buffers are left unchanged. -/
theorem device_none_returns_false_no_buffers (gb : GpuBehavior)
    (pipelineCacheFilled : Bool) (shBasis : ℕ → ℕ → Mat) (narrow : Rec4 → Rec4)
    (l_max : ℕ) (coeffs : ℕ → ℕ → ℚ) (lut_res glyph_count n_coeffs : ℕ)
    (chunk_sizes : List ℕ) (use_float16 : Bool) (dest0 : List (List Rec4))
    (h : gb.deviceAvailable = false) :
    populate_hermite_lut_cube_gpu gb pipelineCacheFilled shBasis narrow l_max coeffs
        lut_res glyph_count n_coeffs chunk_sizes use_float16 dest0
      = .ok (false, ⟨0, dest0⟩) :=
  populate_device_none_aux gb pipelineCacheFilled shBasis narrow l_max coeffs
    lut_res glyph_count n_coeffs chunk_sizes use_float16 dest0 h

theorem device_none_returns_false_no_buffers_witness :
    (GpuBehavior.deviceAvailable ⟨false, true, true, true, true, true, true⟩ = false)
    ∧ populate_hermite_lut_cube_gpu ⟨false, true, true, true, true, true, true⟩ false
        (fun _ _ => ⟨0, 0, fun _ _ => 0⟩) id 0 (fun _ _ => 0) 2 1 1 [1] false [[]]
      = .ok (false, ⟨0, [[]]⟩) :=
  ⟨rfl,
    device_none_returns_false_no_buffers ⟨false, true, true, true, true, true, true⟩
      false (fun _ _ => ⟨0, 0, fun _ _ => 0⟩) id 0 (fun _ _ => 0) 2 1 1 [1] false
      [[]] rfl⟩

/-! ### C3: GPU-layer exceptions are NOT all caught -/

/-- **C3 counterexample.** With a device available, buffer creation working,
but shader-module creation raising (and an empty pipeline cache), the bake
does not return a boolean at all: the GPU-layer exception escapes
`populate_hermite_lut_cube_gpu` as an error, contradicting the claim that
every GPU-layer exception is converted to a `False` return. -/
theorem gpu_exception_propagates_cex :
    populate_hermite_lut_cube_gpu ⟨true, true, false, true, true, true, true⟩ false
        (fun _ _ => ⟨0, 0, fun _ _ => 0⟩) id 0 (fun _ _ => 0) 2 1 1 [1] false [[]]
      = .error .gpuFail := rfl

/-- **C3 (amended).** Exceptions during device acquisition are caught inside
`_get_wgpu_device` and surface as an absent device, so the bake returns
`False` without raising; but GPU-layer exceptions raised after device
acquisition (exemplified by shader-module creation during pipeline
compilation with an unfilled cache) are caught nowhere inside
`populate_hermite_lut_cube_gpu` and propagate past its boundary. -/
theorem gpu_exception_policy (gb : GpuBehavior) (pipelineCacheFilled : Bool)
    (shBasis : ℕ → ℕ → Mat) (narrow : Rec4 → Rec4) (l_max : ℕ)
    (coeffs : ℕ → ℕ → ℚ) (lut_res glyph_count n_coeffs : ℕ)
    (chunk_sizes : List ℕ) (use_float16 : Bool) (dest0 : List (List Rec4)) :
    (gb.deviceAvailable = false →
      populate_hermite_lut_cube_gpu gb pipelineCacheFilled shBasis narrow l_max
          coeffs lut_res glyph_count n_coeffs chunk_sizes use_float16 dest0
        = .ok (false, ⟨0, dest0⟩))
    ∧ (gb.deviceAvailable = true → gb.bufferOk = true → gb.shaderOk = false →
      populate_hermite_lut_cube_gpu gb false shBasis narrow l_max coeffs lut_res
          glyph_count n_coeffs chunk_sizes use_float16 dest0
        = .error .gpuFail) := by
  constructor
  · intro h
    exact populate_device_none_aux gb pipelineCacheFilled shBasis narrow l_max coeffs
      lut_res glyph_count n_coeffs chunk_sizes use_float16 dest0 h
  · intro h1 h2 h3
    obtain ⟨da, bo, so, po, bgo, dis, rb⟩ := gb
    cases da
    · simp at h1
    · cases bo
      · simp at h2
      · cases so
        · exact populate_shader_fail_aux po bgo dis rb shBasis narrow l_max coeffs
            lut_res glyph_count n_coeffs chunk_sizes use_float16 dest0
        · simp at h3

theorem gpu_exception_policy_witness :
    (populate_hermite_lut_cube_gpu ⟨false, true, true, true, true, true, true⟩ true
        (fun _ _ => ⟨0, 0, fun _ _ => 0⟩) id 0 (fun _ _ => 0) 2 1 1 [] false []
      = .ok (false, ⟨0, []⟩))
    ∧ (populate_hermite_lut_cube_gpu ⟨true, true, false, true, true, true, true⟩ false
        (fun _ _ => ⟨0, 0, fun _ _ => 0⟩) id 0 (fun _ _ => 0) 2 1 1 [] true []
      = .error .gpuFail) :=
  ⟨(gpu_exception_policy ⟨false, true, true, true, true, true, true⟩ true
      (fun _ _ => ⟨0, 0, fun _ _ => 0⟩) id 0 (fun _ _ => 0) 2 1 1 [] false []).1 rfl,
    (gpu_exception_policy ⟨true, true, false, true, true, true, true⟩ true
      (fun _ _ => ⟨0, 0, fun _ _ => 0⟩) id 0 (fun _ _ => 0) 2 1 1 [] true []).2
      rfl rfl rfl⟩

/-! ### C10: `glyph_count` is never read -/

/-- **C10.** Two invocations of `populate_hermite_lut_cube_gpu` whose inputs
differ only in the `glyph_count` argument produce the identical result:
the same return value, the same buffer-creation count, and the same bytes
in the caller's destination buffers.  The glyph ranges processed are
determined solely by `chunk_info["chunk_sizes"]`, and nothing checks that
the chunk sizes sum to `glyph_count` — the parameter is never read. -/
theorem glyph_count_never_read (gb : GpuBehavior) (pipelineCacheFilled : Bool)
    (shBasis : ℕ → ℕ → Mat) (narrow : Rec4 → Rec4) (l_max : ℕ)
    (coeffs : ℕ → ℕ → ℚ) (lut_res gc1 gc2 n_coeffs : ℕ)
    (chunk_sizes : List ℕ) (use_float16 : Bool) (dest0 : List (List Rec4)) :
    populate_hermite_lut_cube_gpu gb pipelineCacheFilled shBasis narrow l_max coeffs
        lut_res gc1 n_coeffs chunk_sizes use_float16 dest0
      = populate_hermite_lut_cube_gpu gb pipelineCacheFilled shBasis narrow l_max
          coeffs lut_res gc2 n_coeffs chunk_sizes use_float16 dest0 := rfl
